import Mathlib

/-!
# simple-slack-go: block builder, JSON wire format and webhook submission

A shallow embedding of `src/slack.go`.

* Go pointers (`*Text`, `*string`, `*[]ActionsElement`) are `Option`s, `none` being `nil`.
* A Go slice is `Option (List α)`: `none` is the nil slice, `some l` a non-nil slice holding `l`.
  `encoding/json` tells the two apart (a nil slice is encoded as `null`, a non-nil one as an
  array), so the embedding does too.
* `json.Marshal` is modelled in two layers: the struct-to-JSON-tree translation driven by the
  struct tags of the source (`marshalSlackMessage`), and the printing of that tree (`render`),
  whose encoding of string literals is a parameter (`Env.quote`).
* `SendMessage` talks to the network; its embedding takes the outcome of the library calls as
  an environment and returns the error together with the list of library calls it performed.
-/

set_option linter.dupNamespace false

namespace SimpleSlack

/-! ## Data model (`src/slack.go`, lines 110-143) -/

/-- Text is the struct `Text` of the source: `type` and `text`, both always emitted. -/
structure Text where
  Type_ : String
  Text : String
deriving DecidableEq, Repr

/-- ActionsElement is the struct `ActionsElement`: `Text` is a `*Text`, `URL` a `*string`. -/
structure ActionsElement where
  Type_ : String
  Text : Option Text
  URL : Option String
deriving DecidableEq, Repr

/-- Block is the struct `Block`: `Text` is a `*Text`, `ActionsElements` a pointer to a slice
(`*[]ActionsElement`), so it is a pointer (outer option) to a slice (inner option). -/
structure Block where
  Type_ : String
  Text : Option Text
  ActionsElements : Option (Option (List ActionsElement))
deriving DecidableEq, Repr

/-- SlackMessage is the struct `SlackMessage`: `Blocks` is the slice `[]Block`. -/
structure SlackMessage where
  Blocks : Option (List Block)
deriving DecidableEq, Repr

/-! ## Go slices -/

/-- The built-in `len` of Go on a slice: the nil slice has length 0. -/
def sliceLen {α : Type} : Option (List α) → Nat
  | none => 0
  | some l => l.length

/-- The elements of a slice, in index order (none for the nil slice). -/
def sliceElems {α : Type} : Option (List α) → List α
  | none => []
  | some l => l

/-- The built-in `append(s, x)` of Go with one appended value: the result is never nil,
it holds the old elements followed by `x`. -/
def sliceAppend {α : Type} (s : Option (List α)) (x : α) : Option (List α) :=
  match s with
  | none => some [x]
  | some l => some (l ++ [x])

/-! ## Builder (`src/slack.go`, lines 11-14 and 44-108) -/

/-- NewSlackMessage returns `SlackMessage{}`: the zero value, whose `Blocks` is the nil slice. -/
def NewSlackMessage : SlackMessage :=
  { Blocks := none }

/-- AddHeaderBlock appends a `header` block with a `plain_text` text. -/
def AddHeaderBlock (s : SlackMessage) (text : String) : SlackMessage :=
  { Blocks := sliceAppend s.Blocks
      { Type_ := "header"
        Text := some { Type_ := "plain_text", Text := text }
        ActionsElements := none } }

/-- AddSectionBlock appends a `section` block with a `mrkdwn` text. -/
def AddSectionBlock (s : SlackMessage) (text : String) : SlackMessage :=
  { Blocks := sliceAppend s.Blocks
      { Type_ := "section"
        Text := some { Type_ := "mrkdwn", Text := text }
        ActionsElements := none } }

/-- AddActionsButtonBlock appends an `actions` block whose elements are one `button`. -/
def AddActionsButtonBlock (s : SlackMessage) (buttonText linkURL : String) : SlackMessage :=
  { Blocks := sliceAppend s.Blocks
      { Type_ := "actions"
        Text := none
        ActionsElements := some (some [
          { Type_ := "button"
            Text := some { Type_ := "plain_text", Text := buttonText }
            URL := some linkURL } ]) } }

/-- AddDividerBlock appends a `divider` block with a nil text. -/
def AddDividerBlock (s : SlackMessage) : SlackMessage :=
  { Blocks := sliceAppend s.Blocks
      { Type_ := "divider"
        Text := none
        ActionsElements := none } }

/-- One call of a builder method, with its arguments. -/
inductive BuilderCall where
  | header (text : String)
  | section_ (text : String)
  | divider
  | actionsButton (buttonText linkURL : String)
deriving DecidableEq, Repr

/-- Performs one builder call on a message. -/
def BuilderCall.run (c : BuilderCall) (s : SlackMessage) : SlackMessage :=
  match c with
  | .header text => AddHeaderBlock s text
  | .section_ text => AddSectionBlock s text
  | .divider => AddDividerBlock s
  | .actionsButton buttonText linkURL => AddActionsButtonBlock s buttonText linkURL

/-- Performs a sequence of builder calls, first call first. -/
def runCalls (calls : List BuilderCall) (s : SlackMessage) : SlackMessage :=
  calls.foldl (fun acc c => c.run acc) s

/-! ## JSON trees and `encoding/json` on the structs of the source -/

/-- JSON values, as far as the structs of the source produce them; the fields of an object
are kept in emission order. -/
inductive JValue where
  | null
  | str (s : String)
  | arr (elems : List JValue)
  | obj (fields : List (String × JValue))

/-- The keys of a JSON object, in emission order (none for a value that is no object). -/
def JValue.keys : JValue → List String
  | .obj fields => fields.map Prod.fst
  | _ => []

/-- The value stored under a key of a JSON object, if the key is present. -/
def JValue.get? (k : String) : JValue → Option JValue
  | .obj fields => fields.lookup k
  | _ => none

/-- A field tagged `omitempty` whose Go type is a pointer: the key is left out when the pointer
is nil and emitted otherwise, whatever the pointer points to. -/
def omitemptyPtr {α : Type} (key : String) (p : Option α) (enc : α → JValue) :
    List (String × JValue) :=
  match p with
  | none => []
  | some v => [(key, enc v)]

/-- A slice is encoded as `null` when nil and as an array of its encoded elements otherwise. -/
def marshalSlice {α : Type} (enc : α → JValue) : Option (List α) → JValue
  | none => .null
  | some l => .arr (l.map enc)

/-- Encoding of `Text`: `type` and `text`, in declaration order, neither with `omitempty`. -/
def marshalText (t : Text) : JValue :=
  .obj [("type", .str t.Type_), ("text", .str t.Text)]

/-- Encoding of `ActionsElement`: `type`, then `text,omitempty`, then `url,omitempty`. -/
def marshalActionsElement (e : ActionsElement) : JValue :=
  .obj ([("type", .str e.Type_)]
    ++ omitemptyPtr "text" e.Text marshalText
    ++ omitemptyPtr "url" e.URL JValue.str)

/-- Encoding of `Block`: `type`, then `text,omitempty`, then `elements,omitempty`. -/
def marshalBlock (b : Block) : JValue :=
  .obj ([("type", .str b.Type_)]
    ++ omitemptyPtr "text" b.Text marshalText
    ++ omitemptyPtr "elements" b.ActionsElements (marshalSlice marshalActionsElement))

/-- Encoding of `SlackMessage`: the single key `blocks`, without `omitempty`. -/
def marshalSlackMessage (s : SlackMessage) : JValue :=
  .obj [("blocks", marshalSlice marshalBlock s.Blocks)]

mutual
/-- Compact printing of a JSON tree as `encoding/json` lays it out: no white space, `,` between
entries, `:` after a key. `quote` is the encoding of a string value as a JSON string literal;
the keys of this program are fixed ASCII words and are printed between double quotes. -/
def render (quote : String → String) : JValue → String
  | .null => "null"
  | .str s => quote s
  | .arr elems => "[" ++ renderElems quote elems ++ "]"
  | .obj fields => "\x7b" ++ renderFields quote fields ++ "\x7d"
/-- Printing of the entries of an array. -/
def renderElems (quote : String → String) : List JValue → String
  | [] => ""
  | v :: rest =>
    render quote v ++ (match rest with | [] => "" | _ :: _ => ",") ++ renderElems quote rest
/-- Printing of the fields of an object. -/
def renderFields (quote : String → String) : List (String × JValue) → String
  | [] => ""
  | (k, v) :: rest =>
    "\"" ++ k ++ "\":" ++ render quote v ++ (match rest with | [] => "" | _ :: _ => ",")
      ++ renderFields quote rest
end

/-- The wire format of section 6 of the specification for the block of one builder call,
written from the specification and not from the code. -/
def wireBlock : BuilderCall → JValue
  | .header text =>
    .obj [("type", .str "header"),
          ("text", .obj [("type", .str "plain_text"), ("text", .str text)])]
  | .section_ text =>
    .obj [("type", .str "section"),
          ("text", .obj [("type", .str "mrkdwn"), ("text", .str text)])]
  | .divider => .obj [("type", .str "divider")]
  | .actionsButton buttonText linkURL =>
    .obj [("type", .str "actions"),
          ("elements", .arr [
            .obj [("type", .str "button"),
                  ("text", .obj [("type", .str "plain_text"), ("text", .str buttonText)]),
                  ("url", .str linkURL)]])]

/-! ## Submission (`src/slack.go`, lines 16-42) -/

/-- A Go `error` value as `SendMessage` can return it: either an error value `e` handed back by
a library call (`json.Marshal`, `http.PostForm`, `ioutil.ReadAll`) and returned as it is, or the
error that `fmt.Errorf` builds from a message (no `%w` verb: it wraps nothing). -/
inductive GoError (ε : Type) where
  | cause (e : ε)
  | errorf (msg : String)
deriving DecidableEq, Repr

/-- What `http.PostForm` hands back when it returns no error: the status code, and what
`ioutil.ReadAll(resp.Body)` will yield, a read error or the bytes of the whole body. -/
structure Response (ε : Type) where
  StatusCode : Int
  Body : Except ε (List Nat)

/-- The library calls of `SendMessage`, in the order they can happen. -/
inductive Event where
  | postForm (url : String) (values : List (String × List String))
  | readAll
  | close
deriving DecidableEq, Repr

/-- The world outside the program: how `encoding/json` writes a string literal, and what
`http.PostForm` answers to a URL and form values. -/
structure Env (ε : Type) where
  quote : String → String
  PostForm : String → List (String × List String) → Except ε (Response ε)

/-- The constant `http.StatusOK`. -/
def StatusOK : Int := 200

/-- The call `json.Marshal(s)` on a `*SlackMessage`: these struct types hold only strings,
pointers and slices, which `encoding/json` always encodes, so no error is returned. -/
def jsonMarshal {ε : Type} (quote : String → String) (s : SlackMessage) : Except ε String :=
  .ok (render quote (marshalSlackMessage s))

/-- The verb `%v` of package `fmt` on a `[]byte`: the bytes in decimal, separated by blanks,
between square brackets. -/
def fmtBytes (b : List Nat) : String :=
  "[" ++ " ".intercalate (b.map toString) ++ "]"

/-- The verb `%v` of package `fmt` on an `int`: its decimal numeral. -/
def fmtInt (n : Int) : String :=
  toString n

/-- The message of
`fmt.Errorf("failed to access slack api. result=%v, statusCode=%v", result, resp.StatusCode)`
with `result` a `[]byte` and the status code an `int`. -/
def errorfMessage (result : List Nat) (statusCode : Int) : String :=
  "failed to access slack api. result=" ++ fmtBytes result
    ++ ", statusCode=" ++ fmtInt statusCode

/-- The form values `url.Values{"payload": {string(payload)}}`. -/
def formValues (payload : String) : List (String × List String) :=
  [("payload", [payload])]

/-- SendMessage: the returned error (`none` is the nil error) and the library calls made.
The deferred `resp.Body.Close()` runs when the function returns, after the body was read. -/
def SendMessage {ε : Type} (env : Env ε) (s : SlackMessage) (webhookURL : String) :
    Option (GoError ε) × List Event :=
  match (jsonMarshal env.quote s : Except ε String) with
  | .error err => (some (.cause err), [])
  | .ok payload =>
    match env.PostForm webhookURL (formValues payload) with
    | .error err => (some (.cause err), [.postForm webhookURL (formValues payload)])
    | .ok resp =>
      match resp.Body with
      | .error err =>
        (some (.cause err), [.postForm webhookURL (formValues payload), .readAll, .close])
      | .ok result =>
        if resp.StatusCode ≠ StatusOK then
          (some (.errorf (errorfMessage result resp.StatusCode)),
            [.postForm webhookURL (formValues payload), .readAll, .close])
        else
          (none, [.postForm webhookURL (formValues payload), .readAll, .close])

/-- The bytes of a string in UTF-8, as `List Nat`. -/
def utf8Bytes (s : String) : List Nat :=
  s.data.flatMap (fun c => (String.utf8EncodeChar c).map UInt8.toNat)

/-! ## Concrete environments used to evaluate the code -/

/-- String literals written between double quotes, which is what `encoding/json` does for a
string without characters that need escaping. -/
def plainQuote (s : String) : String :=
  "\"" ++ s ++ "\""

/-- An endpoint that answers every POST with the given status code and body. -/
def mockEndpoint (status : Int) (body : List Nat) : Env String :=
  { quote := plainQuote
    PostForm := fun _ _ => .ok { StatusCode := status, Body := .ok body } }

/-- An endpoint that cannot be reached: every POST fails with the given error. -/
def unreachableEndpoint (e : String) : Env String :=
  { quote := plainQuote
    PostForm := fun _ _ => .error e }

/-! ## Lemmas on slices and on the builder -/

theorem sliceElems_sliceAppend {α : Type} (s : Option (List α)) (x : α) :
    sliceElems (sliceAppend s x) = sliceElems s ++ [x] := by
  cases s <;> rfl

theorem sliceLen_eq_length {α : Type} (s : Option (List α)) :
    sliceLen s = (sliceElems s).length := by
  cases s <;> rfl

theorem sliceAppend_eq_some {α : Type} (s : Option (List α)) (x : α) :
    sliceAppend s x = some (sliceElems s ++ [x]) := by
  cases s <;> rfl

/-- Every builder call appends one block to the slice, and that block is encoded as the wire
format of the call. -/
theorem run_blocks (c : BuilderCall) (s : SlackMessage) :
    ∃ b, (c.run s).Blocks = sliceAppend s.Blocks b ∧ marshalBlock b = wireBlock c := by
  cases c <;> exact ⟨_, rfl, rfl⟩

/-- The block a call appends does not depend on the message it is appended to. -/
theorem run_blocks_fresh (c : BuilderCall) (s : SlackMessage) (b : Block)
    (h : (c.run NewSlackMessage).Blocks = some [b]) :
    (c.run s).Blocks = sliceAppend s.Blocks b := by
  cases c <;>
    simp only [BuilderCall.run, AddHeaderBlock, AddSectionBlock, AddDividerBlock,
      AddActionsButtonBlock, NewSlackMessage, sliceAppend, Option.some.injEq,
      List.cons.injEq, and_true] at h <;>
    subst h <;> rfl

theorem runCalls_cons (c : BuilderCall) (calls : List BuilderCall) (s : SlackMessage) :
    runCalls (c :: calls) s = runCalls calls (c.run s) := rfl

/-- After a sequence of calls the slice holds the old blocks followed by one block per call,
the block of the i-th call at offset i. -/
theorem runCalls_blocks (calls : List BuilderCall) (s : SlackMessage) :
    ∃ added : List Block,
      sliceElems (runCalls calls s).Blocks = sliceElems s.Blocks ++ added ∧
      added.length = calls.length ∧
      (∀ i (hi : i < calls.length), ∃ b, added[i]? = some b ∧
        (calls[i].run NewSlackMessage).Blocks = some [b]) ∧
      added.map marshalBlock = calls.map wireBlock := by
  induction calls generalizing s with
  | nil => exact ⟨[], by simp [runCalls], rfl, fun i hi => absurd hi (by simp), rfl⟩
  | cons c rest ih =>
    obtain ⟨b, hb, hw⟩ := run_blocks c s
    obtain ⟨added, h1, h2, h3, h4⟩ := ih (c.run s)
    refine ⟨b :: added, ?_, by simp [h2], ?_, by simp [hw, h4]⟩
    · rw [runCalls_cons, h1, hb, sliceElems_sliceAppend]; simp
    · intro i hi
      cases i with
      | zero =>
        refine ⟨b, by simp, ?_⟩
        obtain ⟨b0, hb0, _⟩ := run_blocks c NewSlackMessage
        have hfresh := run_blocks_fresh c s b0 (by rw [hb0]; rfl)
        have : sliceAppend s.Blocks b = sliceAppend s.Blocks b0 := by rw [← hb, hfresh]
        rw [sliceAppend_eq_some, sliceAppend_eq_some] at this
        have hbb : b = b0 := by simpa using this
        simpa [hbb] using hb0
      | succ j =>
        have hj : j < rest.length := by simpa using hi
        obtain ⟨bj, hbj, hrun⟩ := h3 j hj
        exact ⟨bj, by simpa using hbj, by simpa using hrun⟩

/-- A non-empty sequence of calls leaves a non-nil slice. -/
theorem runCalls_blocks_some (calls : List BuilderCall) (s : SlackMessage) (h : calls ≠ []) :
    (runCalls calls s).Blocks = some (sliceElems (runCalls calls s).Blocks) := by
  induction calls generalizing s with
  | nil => exact absurd rfl h
  | cons c rest ih =>
    rw [runCalls_cons]
    cases rest with
    | nil =>
      obtain ⟨b, hb, _⟩ := run_blocks c s
      show (c.run s).Blocks = some (sliceElems (c.run s).Blocks)
      rw [hb, sliceAppend_eq_some]; rfl
    | cons d rest2 => exact ih (c.run s) (by simp)

/-! ## C1: order of the serialized block list -/

/-- C1, as stated, fails at the empty sequence of calls: the message is the one returned by
`NewSlackMessage`, its `Blocks` is the nil slice, and the value serialized under `blocks` is
`null`, not an array with one entry per call. -/
theorem blocks_array_empty_sequence_counterexample :
    marshalSlackMessage (runCalls [] NewSlackMessage) = .obj [("blocks", .null)] ∧
    ¬ ∃ entries : List JValue,
      (marshalSlackMessage (runCalls [] NewSlackMessage)).get? "blocks" = some (.arr entries) := by
  refine ⟨rfl, ?_⟩
  rintro ⟨entries, h⟩
  simp [marshalSlackMessage, runCalls, NewSlackMessage, marshalSlice, JValue.get?,
    List.lookup] at h

/-- C1 (amended): for every non-empty sequence of builder calls applied to the message returned
by `NewSlackMessage`, the value serialized under `blocks` is an array with exactly one entry per
call; its i-th entry is the serialization of the block built by the i-th call (the block that
call puts into a fresh message), which is the wire format of that call. -/
theorem blocks_array_follows_call_order (calls : List BuilderCall) (h : calls ≠ []) :
    marshalSlackMessage (runCalls calls NewSlackMessage)
      = .obj [("blocks", .arr (calls.map wireBlock))] ∧
    ∃ (blocks : List Block) (entries : List JValue),
      (runCalls calls NewSlackMessage).Blocks = some blocks ∧
      (marshalSlackMessage (runCalls calls NewSlackMessage)).get? "blocks"
        = some (.arr entries) ∧
      entries.length = calls.length ∧
      ∀ i (hi : i < calls.length), ∃ b,
        blocks[i]? = some b ∧
        (calls[i].run NewSlackMessage).Blocks = some [b] ∧
        entries[i]? = some (marshalBlock b) ∧
        marshalBlock b = wireBlock calls[i] := by
  obtain ⟨added, h1, h2, h3, h4⟩ := runCalls_blocks calls NewSlackMessage
  have hsome := runCalls_blocks_some calls NewSlackMessage h
  have hel : sliceElems (runCalls calls NewSlackMessage).Blocks = added := by
    rw [h1]; rfl
  rw [hel] at hsome
  have hm : marshalSlackMessage (runCalls calls NewSlackMessage)
      = .obj [("blocks", .arr (calls.map wireBlock))] := by
    simp only [marshalSlackMessage, hsome, marshalSlice, h4]
  refine ⟨hm, added, calls.map wireBlock, hsome, ?_, by simp, ?_⟩
  · rw [hm]; simp [JValue.get?, List.lookup]
  · intro i hi
    obtain ⟨b, hb, hrun⟩ := h3 i hi
    have hlt : i < added.length := by omega
    have hwire : marshalBlock b = wireBlock calls[i] := by
      have e1 : (added.map marshalBlock)[i]? = some (marshalBlock b) := by
        simp [hb]
      have e2 : (calls.map wireBlock)[i]? = some (wireBlock calls[i]) := by
        simp [hi]
      rw [h4, e2] at e1
      exact (Option.some.inj e1).symm
    refine ⟨b, hb, hrun, ?_, hwire⟩
    rw [hwire]; simp [hi]

/-- C1 (amended) at a sequence that uses each of the four builder methods once. -/
theorem blocks_array_follows_call_order_witness :
    ([BuilderCall.header "x", .divider, .actionsButton "Go" "https://example.com",
        .section_ "y"] ≠ []) ∧
    marshalSlackMessage (runCalls [.header "x", .divider,
        .actionsButton "Go" "https://example.com", .section_ "y"] NewSlackMessage)
      = .obj [("blocks", .arr ([BuilderCall.header "x", .divider,
          .actionsButton "Go" "https://example.com", .section_ "y"].map wireBlock))] :=
  ⟨by decide,
    (blocks_array_follows_call_order [.header "x", .divider,
      .actionsButton "Go" "https://example.com", .section_ "y"] (by decide)).1⟩

/-! ## C2: a builder call appends exactly one block -/

/-- C2: for every message state and every builder call, the block sequence afterwards is one
longer than before, the blocks already present keep their positions and values, and the
sequence is the old one followed by exactly one block. -/
theorem builder_call_appends_exactly_one (c : BuilderCall) (s : SlackMessage) :
    sliceLen (c.run s).Blocks = sliceLen s.Blocks + 1 ∧
    (sliceElems (c.run s).Blocks).take (sliceLen s.Blocks) = sliceElems s.Blocks ∧
    (∀ i, i < sliceLen s.Blocks →
      (sliceElems (c.run s).Blocks)[i]? = (sliceElems s.Blocks)[i]?) ∧
    ∃ b, sliceElems (c.run s).Blocks = sliceElems s.Blocks ++ [b] := by
  obtain ⟨b, hb, _⟩ := run_blocks c s
  have he : sliceElems (c.run s).Blocks = sliceElems s.Blocks ++ [b] := by
    rw [hb, sliceElems_sliceAppend]
  refine ⟨?_, ?_, ?_, b, he⟩
  · rw [sliceLen_eq_length, sliceLen_eq_length, he]; simp
  · rw [sliceLen_eq_length, he]; simp
  · intro i hi
    rw [sliceLen_eq_length] at hi
    rw [he, List.getElem?_append_left hi]

/-! ## C3 to C6: the block each builder method appends -/

/-- C3: for every label and url, the empty string included, `AddActionsButtonBlock` appends a
block that serializes to an `actions` object whose `elements` is an array of exactly one
`button` with a `plain_text` text of content label and a present `url` key of value url; the
block has no `text` key. The instance with "Go" and "https://example.com" is spelled out. -/
theorem AddActionsButtonBlock_serialization (s : SlackMessage) (label url : String) :
    ∃ b, sliceElems (AddActionsButtonBlock s label url).Blocks = sliceElems s.Blocks ++ [b] ∧
      marshalBlock b = .obj [("type", .str "actions"),
        ("elements", .arr [
          .obj [("type", .str "button"),
                ("text", .obj [("type", .str "plain_text"), ("text", .str label)]),
                ("url", .str url)]])] ∧
      (marshalBlock b).keys = ["type", "elements"] ∧
      (marshalBlock b).get? "text" = none ∧
      (∃ elem, (marshalBlock b).get? "elements" = some (.arr [elem]) ∧
        elem.keys = ["type", "text", "url"] ∧
        elem.get? "type" = some (.str "button") ∧
        elem.get? "text" = some (.obj [("type", .str "plain_text"), ("text", .str label)]) ∧
        elem.get? "url" = some (.str url)) ∧
      (∃ e, b.ActionsElements = some (some [e]) ∧ e.URL = some url) ∧
      (∃ go, sliceElems (AddActionsButtonBlock NewSlackMessage "Go" "https://example.com").Blocks
          = [go] ∧
        marshalBlock go = .obj [("type", .str "actions"),
          ("elements", .arr [
            .obj [("type", .str "button"),
                  ("text", .obj [("type", .str "plain_text"), ("text", .str "Go")]),
                  ("url", .str "https://example.com")]])]) := by
  refine ⟨_, sliceElems_sliceAppend _ _, rfl, rfl, rfl, ⟨_, rfl, rfl, rfl, rfl, rfl⟩,
    ⟨_, rfl, rfl⟩, ⟨_, rfl, rfl⟩⟩

/-- C4: `AddDividerBlock` appends a block that serializes to an object with the single key
`type`, of value `divider`; neither a `text` key nor an `elements` key is present. -/
theorem AddDividerBlock_serialization (s : SlackMessage) :
    ∃ b, sliceElems (AddDividerBlock s).Blocks = sliceElems s.Blocks ++ [b] ∧
      marshalBlock b = .obj [("type", .str "divider")] ∧
      (marshalBlock b).keys = ["type"] ∧
      (marshalBlock b).get? "text" = none ∧
      (marshalBlock b).get? "elements" = none ∧
      (∀ quote, render quote (marshalBlock b) = "\x7b\"type\":" ++ quote "divider" ++ "\x7d") := by
  refine ⟨_, sliceElems_sliceAppend _ _, rfl, rfl, rfl, rfl, ?_⟩
  intro quote
  simp only [marshalBlock, omitemptyPtr, render, renderFields, List.append_nil,
    List.singleton_append, String.append_assoc]
  rw [← String.append_assoc]
  rfl

/-- C5: for every string x, `AddHeaderBlock x` appends a block that serializes to a `header`
object with a `plain_text` text of content x; its keys are `type` and `text` only, there is no
`elements` key. -/
theorem AddHeaderBlock_serialization (s : SlackMessage) (x : String) :
    ∃ b, sliceElems (AddHeaderBlock s x).Blocks = sliceElems s.Blocks ++ [b] ∧
      marshalBlock b = .obj [("type", .str "header"),
        ("text", .obj [("type", .str "plain_text"), ("text", .str x)])] ∧
      (marshalBlock b).keys = ["type", "text"] ∧
      (marshalBlock b).get? "elements" = none := by
  exact ⟨_, sliceElems_sliceAppend _ _, rfl, rfl, rfl⟩

/-- C6: for every string x, `AddSectionBlock x` appends a block that serializes to a `section`
object whose text has style `mrkdwn` (not `plain_text`) and content x; there is no `elements`
key. -/
theorem AddSectionBlock_serialization (s : SlackMessage) (x : String) :
    ∃ b, sliceElems (AddSectionBlock s x).Blocks = sliceElems s.Blocks ++ [b] ∧
      marshalBlock b = .obj [("type", .str "section"),
        ("text", .obj [("type", .str "mrkdwn"), ("text", .str x)])] ∧
      (marshalBlock b).keys = ["type", "text"] ∧
      (∃ t, b.Text = some t ∧ t.Type_ = "mrkdwn" ∧ t.Type_ ≠ "plain_text" ∧ t.Text = x) ∧
      (marshalBlock b).get? "elements" = none := by
  exact ⟨_, sliceElems_sliceAppend _ _, rfl, rfl, ⟨_, rfl, rfl, (by decide : "mrkdwn" ≠ "plain_text"), rfl⟩, rfl⟩

/-! ## C7: the empty message -/

/-- C7, as stated, fails: the message returned by `NewSlackMessage` does not serialize to an
object whose `blocks` is the empty array, neither as a tree nor as text. -/
theorem empty_message_not_empty_array_counterexample :
    marshalSlackMessage NewSlackMessage ≠ .obj [("blocks", .arr [])] ∧
    render plainQuote (marshalSlackMessage NewSlackMessage) ≠ "\x7b\"blocks\":[]\x7d" := by
  constructor
  · simp [marshalSlackMessage, NewSlackMessage, marshalSlice]
  · decide

/-- C7 (amended): the message returned by `NewSlackMessage`, with no builder call applied,
serializes to exactly the object with the single key `blocks` whose value is `null`: the key is
present, and the text is the same whatever the encoding of string literals. -/
theorem empty_message_serializes_to_null_blocks :
    marshalSlackMessage NewSlackMessage = .obj [("blocks", .null)] ∧
    (marshalSlackMessage NewSlackMessage).keys = ["blocks"] ∧
    (marshalSlackMessage NewSlackMessage).get? "blocks" = some .null ∧
    (∀ (ε : Type) (quote : String → String),
      (jsonMarshal quote NewSlackMessage : Except ε String) = .ok "\x7b\"blocks\":null\x7d") := by
  refine ⟨rfl, rfl, rfl, ?_⟩
  intro ε quote
  simp [jsonMarshal, marshalSlackMessage, NewSlackMessage, marshalSlice, render, renderFields]

/-! ## C8 to C10: outcomes of `SendMessage` -/

set_option maxRecDepth 20000 in
/-- C8 at status 500 with body "boom": the POST is made, the body is read and closed, and the
returned error is the one built by `fmt.Errorf`; its message holds the status code 500, and
holds the body as the list of its byte values in decimal, `[98 111 111 109]`: the text "boom"
occurs nowhere in the message. -/
theorem SendMessage_status_500_body_boom :
    utf8Bytes "boom" = [98, 111, 111, 109] ∧
    SendMessage (mockEndpoint 500 (utf8Bytes "boom")) (AddHeaderBlock NewSlackMessage "x")
        "https://hooks.example.com/T"
      = (some (.errorf "failed to access slack api. result=[98 111 111 109], statusCode=500"),
         [.postForm "https://hooks.example.com/T"
            [("payload", ["\x7b\"blocks\":[\x7b\"type\":\"header\",\"text\":\x7b\"type\":\"plain_text\",\"text\":\"x\"\x7d\x7d]\x7d"])],
          .readAll, .close]) ∧
    "statusCode=500".data <:+: (errorfMessage (utf8Bytes "boom") 500).data ∧
    ¬ "boom".data <:+: (errorfMessage (utf8Bytes "boom") 500).data := by
  refine ⟨by decide, by decide, by decide, by decide⟩

/-- C9: for every message (so for every one the builder produces), when the POST completes
with a response and the body of the response is read without error, `SendMessage` returns the
nil error exactly when the status code is 200; with any other status code it returns the error
built by `fmt.Errorf`. -/
theorem SendMessage_nil_iff_status_200 {ε : Type} (env : Env ε) (s : SlackMessage)
    (webhookURL : String) (resp : Response ε) (body : List Nat)
    (hpost : env.PostForm webhookURL
      (formValues (render env.quote (marshalSlackMessage s))) = .ok resp)
    (hbody : resp.Body = .ok body) :
    ((SendMessage env s webhookURL).1 = none ↔ resp.StatusCode = 200) ∧
    (resp.StatusCode ≠ 200 →
      (SendMessage env s webhookURL).1
        = some (.errorf (errorfMessage body resp.StatusCode))) := by
  by_cases hc : resp.StatusCode = 200
  · simp [SendMessage, jsonMarshal, hpost, hbody, hc, StatusOK]
  · simp [SendMessage, jsonMarshal, hpost, hbody, hc, StatusOK]

/-- C9 at a message built with all four builder methods, against endpoints answering 200, 201
and 204 with an empty body: no error for 200, an error for 201 and for 204. -/
theorem SendMessage_nil_iff_status_200_witness :
    (SendMessage (mockEndpoint 200 []) (runCalls [.header "x", .divider,
        .actionsButton "Go" "https://example.com", .section_ "y"] NewSlackMessage)
        "https://hooks.example.com/T").1 = none ∧
    (SendMessage (mockEndpoint 201 []) (runCalls [.header "x", .divider,
        .actionsButton "Go" "https://example.com", .section_ "y"] NewSlackMessage)
        "https://hooks.example.com/T").1
      = some (.errorf (errorfMessage [] 201)) ∧
    (SendMessage (mockEndpoint 204 []) (runCalls [.header "x", .divider,
        .actionsButton "Go" "https://example.com", .section_ "y"] NewSlackMessage)
        "https://hooks.example.com/T").1
      = some (.errorf (errorfMessage [] 204)) :=
  ⟨(SendMessage_nil_iff_status_200 (mockEndpoint 200 []) _ "https://hooks.example.com/T"
      { StatusCode := 200, Body := .ok [] } [] rfl rfl).1.2 rfl,
   (SendMessage_nil_iff_status_200 (mockEndpoint 201 []) _ "https://hooks.example.com/T"
      { StatusCode := 201, Body := .ok [] } [] rfl rfl).2 (by decide),
   (SendMessage_nil_iff_status_200 (mockEndpoint 204 []) _ "https://hooks.example.com/T"
      { StatusCode := 204, Body := .ok [] } [] rfl rfl).2 (by decide)⟩

/-- C10: for every message, when the POST itself fails with a transport error e,
`SendMessage` returns e itself, the only library call made is the POST (the body is neither
read nor closed), and the returned error is not one built by `fmt.Errorf` from a status
code. -/
theorem SendMessage_transport_error {ε : Type} (env : Env ε) (s : SlackMessage)
    (webhookURL : String) (e : ε)
    (hpost : env.PostForm webhookURL
      (formValues (render env.quote (marshalSlackMessage s))) = .error e) :
    (SendMessage env s webhookURL).1 = some (.cause e) ∧
    (SendMessage env s webhookURL).2
      = [.postForm webhookURL (formValues (render env.quote (marshalSlackMessage s)))] ∧
    Event.readAll ∉ (SendMessage env s webhookURL).2 ∧
    (∀ msg, (SendMessage env s webhookURL).1 ≠ some (.errorf msg)) := by
  simp [SendMessage, jsonMarshal, hpost]

/-- C10 at an endpoint that refuses the connection. -/
theorem SendMessage_transport_error_witness :
    (SendMessage (unreachableEndpoint "connection refused")
        (AddSectionBlock NewSlackMessage "x") "https://hooks.example.com/T").1
      = some (.cause "connection refused") ∧
    Event.readAll ∉ (SendMessage (unreachableEndpoint "connection refused")
        (AddSectionBlock NewSlackMessage "x") "https://hooks.example.com/T").2 :=
  ⟨(SendMessage_transport_error (unreachableEndpoint "connection refused")
      (AddSectionBlock NewSlackMessage "x") "https://hooks.example.com/T"
      "connection refused" rfl).1,
   (SendMessage_transport_error (unreachableEndpoint "connection refused")
      (AddSectionBlock NewSlackMessage "x") "https://hooks.example.com/T"
      "connection refused" rfl).2.2.1⟩

end SimpleSlack
